import Mathlib

/-!
Verification of the stocks_frontend risk, performance and optimization
code against its natural-language specification.

Each definition below is a shallow embedding of a TypeScript function of
the repository, translated line by line from the source.  Real-number
arithmetic stands in for JavaScript floating point; where the source can
divide by zero (which in JavaScript yields a non-finite number, not a
real), the embedding uses an explicit `Option`-valued division `jsdiv`.
Guarded divisions (`x > 0 ? a / x : 0`) are embedded as the same guarded
totals the source computes.
-/

namespace StocksFrontend

/-! ## Model of useRiskAnalysis (hooks/useRiskAnalysis.ts)

The hook computes a `RiskMetrics` record from the holdings list.  All
fields are embedded; `Real.sqrt` embeds `Math.sqrt`. -/

/-- One portfolio holding, with the three fields `useRiskAnalysis` reads. -/
structure Holding where
  value : ℝ
  change_percent : ℝ
  category : String

/-- The record returned by the `riskMetrics` memo of `useRiskAnalysis`. -/
structure RiskMetrics where
  portfolioVaR : ℝ
  portfolioVaRPercent : ℝ
  portfolioVaRChange : ℝ
  portfolioCVaR : ℝ
  portfolioCVaRPercent : ℝ
  portfolioCVaRChange : ℝ
  volatility : ℝ
  volatilityChange : ℝ
  beta : ℝ
  betaChange : ℝ
  sharpeRatio : ℝ
  maxDrawdown : ℝ

/-- Source: `holding.change_percent ? Math.abs(holding.change_percent) * 0.01 : 0.02`.
JavaScript truthiness on a number is falsity exactly at 0 (and NaN). -/
noncomputable def stockVolatility (h : Holding) : ℝ :=
  if h.change_percent = 0 then 0.02 else |h.change_percent| * 0.01

/-- Source: the sector-to-beta conditional chain of `useRiskAnalysis`. -/
def stockBeta (h : Holding) : ℝ :=
  if h.category = "Technology" then 1.2
  else if h.category = "Healthcare" then 0.9
  else if h.category = "Financials" then 1.1
  else if h.category = "Utilities" then 0.7
  else if h.category = "Consumer Goods" then 0.8
  else 1.0

/-- Source: the `totalVolatility` accumulator, `Σ weight * stockVolatility`
with `weight = holding.value / totalValue`. -/
noncomputable def totalVolatility (hs : List Holding) (totalValue : ℝ) : ℝ :=
  (hs.map (fun h => h.value / totalValue * stockVolatility h)).sum

/-- Source: the `weightedBeta` accumulator of `useRiskAnalysis`. -/
noncomputable def weightedBeta (hs : List Holding) (totalValue : ℝ) : ℝ :=
  (hs.map (fun h => h.value / totalValue * stockBeta h)).sum

/-- Source: the `totalWeight` accumulator of `useRiskAnalysis`. -/
noncomputable def totalWeight (hs : List Holding) (totalValue : ℝ) : ℝ :=
  (hs.map (fun h => h.value / totalValue)).sum

/-- Source: `confidenceLevel === 90 ? 1.28 : confidenceLevel === 95 ? 1.65 : 2.33`.
The confidence level is an exact integer in the UI, embedded as `ℚ`. -/
def zScore (confidenceLevel : ℚ) : ℝ :=
  if confidenceLevel = 90 then 1.28 else if confidenceLevel = 95 then 1.65 else 2.33

/-- The `riskMetrics` memo of `useRiskAnalysis`: the empty-holdings branch
returns the all-zero record, otherwise the parametric computation runs. -/
noncomputable def riskMetrics (hs : List Holding) (totalValue : ℝ)
    (confidenceLevel : ℚ) (timeHorizon : ℝ) : RiskMetrics :=
  if hs.length = 0 then
    { portfolioVaR := 0, portfolioVaRPercent := 0, portfolioVaRChange := 0
      portfolioCVaR := 0, portfolioCVaRPercent := 0, portfolioCVaRChange := 0
      volatility := 0, volatilityChange := 0, beta := 0, betaChange := 0
      sharpeRatio := 0, maxDrawdown := 0 }
  else
    let portfolioVolatility := totalVolatility hs totalValue * Real.sqrt 252
    let portfolioBeta := if totalWeight hs totalValue > 0 then weightedBeta hs totalValue else 1
    let dailyVaR := if portfolioVolatility > 0
      then portfolioVolatility / Real.sqrt 252 * zScore confidenceLevel else 0
    let adjustedVaR := dailyVaR * Real.sqrt timeHorizon
    let sharpe := if portfolioVolatility > 0 then (0.08 - 0.02) / portfolioVolatility else 0
    { portfolioVaR := totalValue * (adjustedVaR / 100)
      portfolioVaRPercent := adjustedVaR
      portfolioVaRChange := 0
      portfolioCVaR := totalValue * (adjustedVaR / 100) * 1.3
      portfolioCVaRPercent := adjustedVaR * 1.3
      portfolioCVaRChange := 0
      volatility := portfolioVolatility * 100
      volatilityChange := 0
      beta := portfolioBeta
      betaChange := 0
      sharpeRatio := sharpe
      maxDrawdown := 0 }

/-- A concrete holding used to evaluate the risk computations: value 100,
daily change 10 percent, a sector outside the special beta cases. -/
def sampleHolding : Holding := { value := 100, change_percent := 10, category := "Energy" }

lemma totalVolatility_sample : totalVolatility [sampleHolding] 100 = 0.1 := by
  simp [totalVolatility, stockVolatility, sampleHolding]
  norm_num

lemma sqrt252_pos : (0 : ℝ) < Real.sqrt 252 :=
  Real.sqrt_pos.mpr (by norm_num)

/-- Evaluation of the VaR-percent field at the sample holding, confidence 95,
horizon 1: the code yields `0.1 * 1.65 = 0.165`. -/
lemma riskMetrics_sample_var :
    (riskMetrics [sampleHolding] 100 95 1).portfolioVaRPercent = 0.165 := by
  have hv := totalVolatility_sample
  have hs := sqrt252_pos
  simp only [riskMetrics, hv]
  rw [if_neg (by simp)]
  have hpos : (0.1 : ℝ) * Real.sqrt 252 > 0 := by positivity
  simp only [hpos, if_pos, zScore]
  rw [mul_div_assoc, div_self (ne_of_gt hs)]
  norm_num [Real.sqrt_one]

lemma riskMetrics_sample_nonempty : ([sampleHolding].length ≠ 0) := by simp

lemma totalVolatility_sample_pos : 0 < totalVolatility [sampleHolding] 100 := by
  rw [totalVolatility_sample]; norm_num

/-- C10: with an empty holdings list, `useRiskAnalysis` returns the record
whose twelve fields (VaR and CVaR in percent and currency, their changes,
volatility, beta, Sharpe ratio, max drawdown) are all zero. -/
theorem riskMetrics_empty_all_zero (totalValue : ℝ) (confidenceLevel : ℚ) (timeHorizon : ℝ) :
    riskMetrics [] totalValue confidenceLevel timeHorizon =
      { portfolioVaR := 0, portfolioVaRPercent := 0, portfolioVaRChange := 0
        portfolioCVaR := 0, portfolioCVaRPercent := 0, portfolioCVaRChange := 0
        volatility := 0, volatilityChange := 0, beta := 0, betaChange := 0
        sharpeRatio := 0, maxDrawdown := 0 } := by
  simp [riskMetrics]

/-- C1: the risk calculator computes Conditional VaR as the flat multiple
`1.3 * VaR` for every input, and at a concrete input with nonzero VaR
(one holding, 10 percent daily change, confidence 95, horizon 1) VaR is
0.165, so CVaR is 0.2145 rather than the parametric expected-shortfall
closed form `volatility * phi(z(c)) / (1 - c)`. -/
theorem riskMetrics_cvar_flat_multiple :
    (∀ (hs : List Holding) (tv : ℝ) (c : ℚ) (h : ℝ),
      (riskMetrics hs tv c h).portfolioCVaRPercent =
        (riskMetrics hs tv c h).portfolioVaRPercent * 1.3) ∧
    (riskMetrics [sampleHolding] 100 95 1).portfolioVaRPercent = 0.165 := by
  constructor
  · intro hs tv c h
    by_cases hne : hs.length = 0 <;> simp [riskMetrics, hne]
  · exact riskMetrics_sample_var

/-- C2 counterexample: at the sample input (daily volatility 0.1, confidence
95, horizon 1) the code produces VaR of 0.165, which differs from the value
`1.6449 * 0.1 * sqrt 1` the claim's exact quantile would give. -/
theorem riskMetrics_var_not_exact_quantile :
    (riskMetrics [sampleHolding] 100 95 1).portfolioVaRPercent = 0.165 ∧
    (0.165 : ℝ) ≠ 1.6449 * 0.1 * Real.sqrt 1 := by
  refine ⟨riskMetrics_sample_var, ?_⟩
  rw [Real.sqrt_one]
  norm_num

/-- C2 amended: for confidence levels 90, 95, 99 the parametric VaR uses
the rounded one-sided quantiles z(90) = 1.28, z(95) = 1.65, z(99) = 2.33,
and computes `VaR = z(c) * daily_volatility * sqrt(horizon)` whenever the
portfolio daily volatility is positive. -/
theorem riskMetrics_var_parametric (hs : List Holding) (tv : ℝ) (c : ℚ) (h : ℝ)
    (hne : hs.length ≠ 0) (hv : 0 < totalVolatility hs tv) :
    (riskMetrics hs tv c h).portfolioVaRPercent =
      zScore c * totalVolatility hs tv * Real.sqrt h ∧
    zScore 90 = 1.28 ∧ zScore 95 = 1.65 ∧ zScore 99 = 2.33 := by
  refine ⟨?_, by norm_num [zScore], by norm_num [zScore], by norm_num [zScore]⟩
  have hpv : totalVolatility hs tv * Real.sqrt 252 > 0 :=
    mul_pos hv sqrt252_pos
  simp only [riskMetrics, hne, if_false, if_pos hpv]
  rw [mul_div_assoc, div_self (ne_of_gt sqrt252_pos)]
  ring

/-- C2 amended, witness: the parametric VaR theorem applied at the sample
holding with confidence 95 and horizon 1. -/
theorem riskMetrics_var_parametric_witness :
    (riskMetrics [sampleHolding] 100 95 1).portfolioVaRPercent =
      zScore 95 * totalVolatility [sampleHolding] 100 * Real.sqrt 1 ∧
    zScore 90 = 1.28 ∧ zScore 95 = 1.65 ∧ zScore 99 = 2.33 :=
  riskMetrics_var_parametric [sampleHolding] 100 95 1
    riskMetrics_sample_nonempty totalVolatility_sample_pos

/-! ## Model of OptimizationPage.tsx

The optimizer routines on this page use only exact decimal arithmetic
(no square roots), so they are embedded over `ℚ` and fully computable. -/

/-- One holding as read by the OptimizationPage optimizers. -/
structure OptHolding where
  symbol : String
  category : String

/-- The two scalar constraints `runMeanVarianceOptimization` reads. -/
structure OptimizationConstraints where
  maxPositionSize : ℚ
  minPositionSize : ℚ

/-- The result record of the OptimizationPage optimizers.  Note that the
source interface has no feasibility flag and no diagnostic field. -/
structure OptimizationResult where
  method : String
  allocations : List (String × ℚ)
  expectedReturn : ℚ
  expectedVolatility : ℚ
  sharpeRatio : ℚ
  maxDrawdown : ℚ
  confidence : ℚ
  rebalancingCost : ℚ
  benchmark : String

/-- Source: `RISK_FREE_RATE = 0.07` of OptimizationPage.tsx. -/
def RISK_FREE_RATE : ℚ := 0.07

/-- The per-holding weight of `runMeanVarianceOptimization`: equal weight,
sector multipliers, then clip to the max and min position sizes. -/
def mvWeight (n : ℕ) (cons : OptimizationConstraints) (h : OptHolding) : ℚ :=
  let equalWeight : ℚ := 100 / n
  let w1 := if h.category = "Technology" then equalWeight * 1.2 else equalWeight
  let w2 := if h.category = "Banking" then w1 * 1.1 else w1
  let w3 := if h.category = "Healthcare" then w2 * 0.9 else w2
  max (min w3 cons.maxPositionSize) cons.minPositionSize

/-- Source: `runMeanVarianceOptimization` of OptimizationPage.tsx: clip the
weights to the position-size bounds, then normalize the total to 100. -/
def runMeanVarianceOptimization (hs : List OptHolding)
    (benchmarkName : String) (cons : OptimizationConstraints) : OptimizationResult :=
  let ws := hs.map (fun h => (h.symbol, mvWeight hs.length cons h))
  let totalW := (ws.map (fun p => p.2)).sum
  { method := "mean-variance"
    allocations := ws.map (fun p => (p.1, p.2 / totalW * 100))
    expectedReturn := 0.125
    expectedVolatility := 0.16
    sharpeRatio := (0.125 - RISK_FREE_RATE) / 0.16
    maxDrawdown := 0.18
    confidence := 0.85
    rebalancingCost := 0.002
    benchmark := benchmarkName }

/-- The per-holding weight of `runMinVolatilityOptimization`: equal weight
adjusted by fixed sector multipliers; covariance is never consulted. -/
def minVolWeight (n : ℕ) (h : OptHolding) : ℚ :=
  let w : ℚ := 100 / n
  let w1 := if h.category = "FMCG" then w * 1.5 else w
  let w2 := if h.category = "Healthcare" then w1 * 1.3 else w1
  let w3 := if h.category = "Utilities" then w2 * 1.4 else w2
  let w4 := if h.category = "Technology" then w3 * 0.7 else w3
  if h.category = "Energy" then w4 * 0.6 else w4

/-- Source: `runMinVolatilityOptimization` of OptimizationPage.tsx.  Its only
input is the holdings list: expected returns and the covariance matrix do
not appear in its signature. -/
def runMinVolatilityOptimization (hs : List OptHolding) : OptimizationResult :=
  let ws := hs.map (fun h => (h.symbol, minVolWeight hs.length h))
  let totalW := (ws.map (fun p => p.2)).sum
  { method := "min-volatility"
    allocations := ws.map (fun p => (p.1, p.2 / totalW * 100))
    expectedReturn := 0.095
    expectedVolatility := 0.10
    sharpeRatio := (0.095 - RISK_FREE_RATE) / 0.10
    maxDrawdown := 0.08
    confidence := 0.95
    rebalancingCost := 0.001
    benchmark := "Nifty 50" }

/-- Modelled from the spec: the closed-form minimum-variance weights for
uncorrelated assets, each weight proportional to the inverse variance. -/
def invVarianceWeights (vars : List ℚ) : List ℚ :=
  vars.map (fun v => (1 / v) / ((vars.map (fun w => 1 / w)).sum))

/-- Three holdings in a sector with no special multiplier in either
optimizer. -/
def threeAutoHoldings : List OptHolding :=
  [{ symbol := "A", category := "Auto" }, { symbol := "B", category := "Auto" },
   { symbol := "C", category := "Auto" }]

/-- The infeasible constraint set of the C3 scenario: a 40 percent minimum
position across three assets (sums to 120 percent). -/
def infeasibleCons : OptimizationConstraints :=
  { maxPositionSize := 100, minPositionSize := 40 }

/-- C3: on the infeasible scenario (three assets, 40 percent minimum each),
the mean-variance optimizer silently renormalizes and returns a weight
vector of 33.33 percent per asset; every component violates the 40 percent
minimum, and the result type carries no feasibility flag or diagnostic. -/
theorem runMeanVariance_infeasible_renormalizes :
    (runMeanVarianceOptimization threeAutoHoldings "Nifty 50" infeasibleCons).allocations =
      [("A", 100 / 3), ("B", 100 / 3), ("C", 100 / 3)] ∧
    (100 / 3 : ℚ) < infeasibleCons.minPositionSize := by
  constructor
  · simp only [runMeanVarianceOptimization, mvWeight, threeAutoHoldings, infeasibleCons,
      List.map, List.sum_cons, List.sum_nil, List.length, String.reduceEq, if_false]
    norm_num
  · norm_num [infeasibleCons]

/-- C4 counterexample: on the 3-asset scenario the min-volatility optimizer
returns equal weights of 33.33 percent each; the first weight is nowhere
near the 15.79 percent the claim asserts. -/
theorem runMinVolatility_not_inverse_variance :
    (runMinVolatilityOptimization threeAutoHoldings).allocations =
      [("A", 100 / 3), ("B", 100 / 3), ("C", 100 / 3)] ∧
    ¬ |(100 / 3 : ℚ) / 100 - 0.1579| < 0.01 := by
  constructor
  · simp only [runMinVolatilityOptimization, minVolWeight, threeAutoHoldings,
      List.map, List.sum_cons, List.sum_nil, List.length, String.reduceEq, if_false]
    norm_num
  · have h5 : |(100 / 3 : ℚ) / 100 - 0.1579| = 5263 / 30000 := by
      rw [abs_of_nonneg (by norm_num)]
      norm_num
    rw [h5]
    norm_num

/-- C4 amended: the min-volatility optimizer ignores the covariance input
entirely and returns sector-adjusted equal weights, here 33.33 percent per
asset; the true inverse-variance closed form for variances
[0.04, 0.01, 0.09] is [9/49, 36/49, 4/49], and the code's weight differs
from it. -/
theorem runMinVolatility_equal_weights :
    (runMinVolatilityOptimization threeAutoHoldings).allocations =
      [("A", 100 / 3), ("B", 100 / 3), ("C", 100 / 3)] ∧
    invVarianceWeights [0.04, 0.01, 0.09] = [9 / 49, 36 / 49, 4 / 49] ∧
    (100 / 3 : ℚ) / 100 ≠ 9 / 49 := by
  refine ⟨?_, ?_, by norm_num⟩
  · simp only [runMinVolatilityOptimization, minVolWeight, threeAutoHoldings,
      List.map, List.sum_cons, List.sum_nil, List.length, String.reduceEq, if_false]
    norm_num
  · norm_num [invVarianceWeights]

/-! ## Model of EfficientFrontierChart.tsx

`generateEfficientFrontier` sweeps target returns, calls the simulated
optimizer, collects the feasible points, then mutates the maximum-Sharpe
point's `isOptimal` flag.  The mutation is embedded as marking the index
the source's `reduce` selects.  `generateRandomPortfolios` is embedded one
sample at a time, parametrized by the raw `Math.random()` draws. -/

/-- The `portfolioData` prop of EfficientFrontierChart. -/
structure PortfolioData where
  symbols : List String
  returns : List ℝ
  covariance : List (List ℝ)

/-- An `EfficientFrontierPoint`; the optional `isOptimal` field is `false`
until the flagging step sets it. -/
structure FrontierPoint where
  risk : ℝ
  ret : ℝ
  weights : List ℝ
  sharpeRatio : ℝ
  isOptimal : Bool

/-- Source: `weights.reduce((sum, w, idx) => sum + w * portfolioData.returns[idx], 0)`. -/
noncomputable def portfolioReturn (pd : PortfolioData) (ws : List ℝ) : ℝ :=
  (List.zipWith (fun w r => w * r) ws pd.returns).sum

/-- Source: the double loop `variance += weights[j] * weights[k] * covariance[j][k]`
over `j, k < portfolioData.symbols.length`. -/
noncomputable def portfolioVariance (pd : PortfolioData) (ws : List ℝ) : ℝ :=
  ∑ j ∈ Finset.range pd.symbols.length, ∑ k ∈ Finset.range pd.symbols.length,
    ws.getD j 0 * ws.getD k 0 * ((pd.covariance.getD j []).getD k 0)

/-- The point record built from a weight vector: risk and return in percent
and the Sharpe ratio with the zero-volatility guard, as in the source. -/
noncomputable def mkFrontierPoint (pd : PortfolioData) (ws : List ℝ) : FrontierPoint :=
  let expectedReturn := portfolioReturn pd ws
  let volatility := Real.sqrt (portfolioVariance pd ws)
  { risk := volatility * 100
    ret := expectedReturn * 100
    weights := ws
    sharpeRatio := if volatility > 0 then (expectedReturn - 0.02) / volatility else 0
    isOptimal := false }

/-- Source: the `weights` local of `simulateMeanVarianceOptimization`,
biased toward higher-return assets: `max(0, ret - targetReturn + 0.05)`. -/
noncomputable def heurWeights (pd : PortfolioData) (targetReturn : ℝ) : List ℝ :=
  pd.returns.map (fun ret => max 0 (ret - targetReturn + 0.05))

/-- Source: `simulateMeanVarianceOptimization`: the heuristic weights,
normalized when their sum is positive, otherwise `null`. -/
noncomputable def simulateMeanVarianceOptimization (pd : PortfolioData)
    (targetReturn : ℝ) : Option (List ℝ) :=
  if (heurWeights pd targetReturn).sum > 0
  then some ((heurWeights pd targetReturn).map (fun w => w / (heurWeights pd targetReturn).sum))
  else none

/-- `Math.min(...l)` for a nonempty list of numbers. -/
noncomputable def jsMin (l : List ℝ) : ℝ := l.foldr min (l.headD 0)

/-- `Math.max(...l)` for a nonempty list of numbers. -/
noncomputable def jsMax (l : List ℝ) : ℝ := l.foldr max (l.headD 0)

/-- Source: `targetReturn = minReturn + (maxReturn - minReturn) * i / (numPoints - 1)`
for `i < numPoints`, where min and max range over the single-asset returns
(times 100). -/
noncomputable def frontierTargets (pd : PortfolioData) (numPoints : ℕ) : List ℝ :=
  let minReturn := jsMin pd.returns * 100
  let maxReturn := jsMax pd.returns * 100
  (List.range numPoints).map
    (fun i => minReturn + (maxReturn - minReturn) * i / ((numPoints : ℝ) - 1))

/-- The source's `points.reduce((max, point) => point.sharpeRatio > max.sharpeRatio
? point : max)`, tracked with the index of the current best point. -/
noncomputable def bestSharpeAux : List FrontierPoint → ℕ → ℕ → ℝ → ℕ × ℝ
  | [], _, bi, bs => (bi, bs)
  | p :: rest, i, bi, bs =>
      if p.sharpeRatio > bs then bestSharpeAux rest (i + 1) i p.sharpeRatio
      else bestSharpeAux rest (i + 1) bi bs

/-- Index of the point the source's `reduce` returns (its first maximum-Sharpe
point); the source throws on an empty list, which never occurs after a sweep
over a nonempty asset list. -/
noncomputable def bestSharpeIdx : List FrontierPoint → ℕ
  | [] => 0
  | p :: rest => (bestSharpeAux rest 1 0 p.sharpeRatio).1

/-- Source: `maxSharpePoint.isOptimal = true`. -/
def setOptimal (p : FrontierPoint) : FrontierPoint :=
  { p with isOptimal := true }

/-- Replace the point at index `t` (counting from `i`) by its flagged copy. -/
noncomputable def markIdx (t : ℕ) : ℕ → List FrontierPoint → List FrontierPoint
  | _, [] => []
  | i, p :: rest => (if i = t then setOptimal p else p) :: markIdx t (i + 1) rest

/-- The in-place mutation of the maximum-Sharpe point, as a list update. -/
noncomputable def flagMaxSharpe (ps : List FrontierPoint) : List FrontierPoint :=
  markIdx (bestSharpeIdx ps) 0 ps

/-- Source: `generateEfficientFrontier` of EfficientFrontierChart.tsx: sweep
the targets, keep the non-null optimizer results in sweep order, flag the
maximum-Sharpe point.  No re-sort of any kind is performed. -/
noncomputable def generateEfficientFrontier (pd : PortfolioData) (numPoints : ℕ) :
    List FrontierPoint :=
  flagMaxSharpe ((frontierTargets pd numPoints).filterMap
    (fun t => (simulateMeanVarianceOptimization pd (t / 100)).map (mkFrontierPoint pd)))

/-- The `constraints` prop of the chart; `maxWeight`/`minWeight` may be absent. -/
structure RandomConstraints where
  maxWeight : Option ℝ
  minWeight : Option ℝ

/-- Source: `if (constraints.maxWeight) weights = weights.map(w => min(w, maxWeight))`.
A present-but-zero bound is falsy in JavaScript and is skipped. -/
noncomputable def applyMaxWeight (c : RandomConstraints) (ws : List ℝ) : List ℝ :=
  match c.maxWeight with
  | none => ws
  | some m => if m = 0 then ws else ws.map (fun w => min w m)

/-- Source: `if (constraints.minWeight) weights = weights.map(w => max(w, minWeight))`. -/
noncomputable def applyMinWeight (c : RandomConstraints) (ws : List ℝ) : List ℝ :=
  match c.minWeight with
  | none => ws
  | some m => if m = 0 then ws else ws.map (fun w => max w m)

/-- Source: the first normalization `weights.map(w => w / sum)` of the raw
`Math.random()` draws. -/
noncomputable def normalizedRaws (raws : List ℝ) : List ℝ :=
  raws.map (fun w => w / raws.sum)

/-- The weights after the first normalization and both constraint clips. -/
noncomputable def clippedWeights (c : RandomConstraints) (raws : List ℝ) : List ℝ :=
  applyMinWeight c (applyMaxWeight c (normalizedRaws raws))

/-- One sampled portfolio of `generateRandomPortfolios`: normalize, clip to
the bounds, renormalize when the clipped sum is positive, then build the
point record with the same metric formulas as the frontier points. -/
noncomputable def mkRandomPortfolio (pd : PortfolioData) (c : RandomConstraints)
    (raws : List ℝ) : FrontierPoint :=
  let ws := clippedWeights c raws
  mkFrontierPoint pd (if ws.sum > 0 then ws.map (fun w => w / ws.sum) else ws)

/-! ### Concrete two-asset evaluation input

Asset A has return 0 and variance 1; asset B has return 0.1 and variance
0.01; no correlation.  The spec allows `num_points` as low as 2. -/

/-- Two uncorrelated assets: returns [0, 0.1], variances [1, 0.01]. -/
noncomputable def cexPortfolio : PortfolioData :=
  { symbols := ["A", "B"], returns := [0, 0.1], covariance := [[1, 0], [0, 0.01]] }

/-- The frontier point produced at the first sweep target. -/
noncomputable def cexPoint0 : FrontierPoint := mkFrontierPoint cexPortfolio [0.25, 0.75]

/-- The frontier point produced at the second sweep target. -/
noncomputable def cexPoint1 : FrontierPoint := mkFrontierPoint cexPortfolio [0, 1]

lemma targets_cex : frontierTargets cexPortfolio 2 = [0, 10] := by
  simp [frontierTargets, jsMin, jsMax, cexPortfolio, List.range_succ]
  norm_num

lemma simMVO_cex_0 :
    simulateMeanVarianceOptimization cexPortfolio 0 = some [0.25, 0.75] := by
  have h1 : max (0 : ℝ) (0 - 0 + 0.05) = 0.05 := by rw [max_eq_right (by norm_num)]; norm_num
  have h2 : max (0 : ℝ) (0.1 - 0 + 0.05) = 0.15 := by rw [max_eq_right (by norm_num)]; norm_num
  simp only [simulateMeanVarianceOptimization, heurWeights, cexPortfolio, List.map, h1, h2,
    List.sum_cons, List.sum_nil]
  norm_num

lemma simMVO_cex_1 :
    simulateMeanVarianceOptimization cexPortfolio (10 / 100) = some [0, 1] := by
  have h1 : max (0 : ℝ) (0 - 10 / 100 + 0.05) = 0 := by rw [max_eq_left (by norm_num)]
  have h2 : max (0 : ℝ) (0.1 - 10 / 100 + 0.05) = 0.05 := by
    rw [max_eq_right (by norm_num)]; norm_num
  simp only [simulateMeanVarianceOptimization, heurWeights, cexPortfolio, List.map, h1, h2,
    List.sum_cons, List.sum_nil]
  norm_num

lemma ret_cex0 : portfolioReturn cexPortfolio [0.25, 0.75] = 0.075 := by
  norm_num [portfolioReturn, cexPortfolio]

lemma var_cex0 : portfolioVariance cexPortfolio [0.25, 0.75] = 0.068125 := by
  norm_num [portfolioVariance, cexPortfolio, Finset.sum_range_succ]

lemma ret_cex1 : portfolioReturn cexPortfolio [0, 1] = 0.1 := by
  norm_num [portfolioReturn, cexPortfolio]

lemma var_cex1 : portfolioVariance cexPortfolio [0, 1] = 0.01 := by
  norm_num [portfolioVariance, cexPortfolio, Finset.sum_range_succ]

lemma sqrt_001 : Real.sqrt 0.01 = 0.1 := by
  rw [show (0.01 : ℝ) = 0.1 ^ 2 by norm_num]
  exact Real.sqrt_sq (by norm_num)

lemma sqrt_var0_gt : (0.25 : ℝ) < Real.sqrt 0.068125 := by
  have h : (0.25 : ℝ) = Real.sqrt 0.0625 := by
    rw [show (0.0625 : ℝ) = 0.25 ^ 2 by norm_num, Real.sqrt_sq] ; norm_num
  rw [h]
  exact Real.sqrt_lt_sqrt (by norm_num) (by norm_num)

lemma cexPoint0_risk : cexPoint0.risk = Real.sqrt 0.068125 * 100 := by
  simp [cexPoint0, mkFrontierPoint, var_cex0]

lemma cexPoint0_sharpe : cexPoint0.sharpeRatio = 0.055 / Real.sqrt 0.068125 := by
  have hpos : (0 : ℝ) < Real.sqrt 0.068125 := lt_trans (by norm_num) sqrt_var0_gt
  simp only [cexPoint0, mkFrontierPoint, var_cex0, ret_cex0, if_pos hpos]
  norm_num

lemma cexPoint1_risk : cexPoint1.risk = 10 := by
  simp [cexPoint1, mkFrontierPoint, var_cex1, sqrt_001]
  norm_num

lemma cexPoint1_sharpe : cexPoint1.sharpeRatio = 0.8 := by
  simp only [cexPoint1, mkFrontierPoint, var_cex1, ret_cex1, sqrt_001]
  rw [if_pos (by norm_num)]
  norm_num

lemma cex_sharpe_lt : cexPoint0.sharpeRatio < cexPoint1.sharpeRatio := by
  rw [cexPoint0_sharpe, cexPoint1_sharpe]
  have hpos : (0 : ℝ) < 0.25 := by norm_num
  calc (0.055 : ℝ) / Real.sqrt 0.068125 < 0.055 / 0.25 :=
        div_lt_div_of_pos_left (by norm_num) (by norm_num) sqrt_var0_gt
    _ < 0.8 := by norm_num

lemma raw_points_cex :
    (frontierTargets cexPortfolio 2).filterMap
      (fun t => (simulateMeanVarianceOptimization cexPortfolio (t / 100)).map
        (mkFrontierPoint cexPortfolio)) = [cexPoint0, cexPoint1] := by
  rw [targets_cex]
  simp [List.filterMap_cons, simMVO_cex_0, simMVO_cex_1, cexPoint0, cexPoint1]

lemma genEF_cex :
    generateEfficientFrontier cexPortfolio 2 = [cexPoint0, setOptimal cexPoint1] := by
  rw [generateEfficientFrontier, raw_points_cex]
  have hidx : bestSharpeIdx [cexPoint0, cexPoint1] = 1 := by
    simp only [bestSharpeIdx, bestSharpeAux, if_pos cex_sharpe_lt]
  rw [flagMaxSharpe, hidx]
  simp [markIdx]

/-! ### General lemmas about the frontier builder -/

lemma sum_map_div (l : List ℝ) (s : ℝ) : (l.map (fun w => w / s)).sum = l.sum / s := by
  induction l with
  | nil => simp
  | cons a t ih => simp [ih, add_div]

lemma sum_nonneg_eq_zero (l : List ℝ) (h : ∀ x ∈ l, 0 ≤ x) :
    l.sum ≤ 0 ↔ ∀ x ∈ l, x = 0 := by
  induction l with
  | nil => simp
  | cons a t ih =>
    have ha : 0 ≤ a := h a (by simp)
    have ht : ∀ x ∈ t, 0 ≤ x := fun x hx => h x (by simp [hx])
    have hts : 0 ≤ t.sum := List.sum_nonneg ht
    constructor
    · intro hs
      have ha0 : a = 0 := le_antisymm (by simp only [List.sum_cons] at hs; linarith) ha
      have ht0 : ∀ x ∈ t, x = 0 := (ih ht).mp (by simp only [List.sum_cons] at hs; linarith)
      intro x hx
      rcases List.mem_cons.mp hx with rfl | hx
      · exact ha0
      · exact ht0 x hx
    · intro h0
      have : t.sum ≤ 0 := (ih ht).mpr (fun x hx => h0 x (by simp [hx]))
      have : a = 0 := h0 a (by simp)
      simp only [List.sum_cons, this, zero_add]
      exact (ih ht).mpr (fun x hx => h0 x (by simp [hx]))

lemma simMVO_sum_one (pd : PortfolioData) (t : ℝ) (ws : List ℝ)
    (h : simulateMeanVarianceOptimization pd t = some ws) : ws.sum = 1 := by
  unfold simulateMeanVarianceOptimization at h
  split_ifs at h with hp
  · have hws : (heurWeights pd t).map (fun w => w / (heurWeights pd t).sum) = ws :=
      Option.some.inj h
    rw [← hws, sum_map_div, div_self (ne_of_gt hp)]

lemma simMVO_none_iff (pd : PortfolioData) (t : ℝ) :
    simulateMeanVarianceOptimization pd t = none ↔ ∀ r ∈ pd.returns, r + 0.05 ≤ t := by
  have hnn : ∀ x ∈ pd.returns.map (fun r => max 0 (r - t + 0.05)), 0 ≤ x := by
    intro x hx
    obtain ⟨r, _, rfl⟩ := List.mem_map.mp hx
    exact le_max_left _ _
  have key : (pd.returns.map (fun r => max 0 (r - t + 0.05))).sum ≤ 0 ↔
      ∀ r ∈ pd.returns, r + 0.05 ≤ t := by
    rw [sum_nonneg_eq_zero _ hnn]
    constructor
    · intro h r hr
      have h0 := h _ (List.mem_map_of_mem _ hr)
      have hle : r - t + 0.05 ≤ 0 := max_eq_left_iff.mp h0
      linarith
    · intro h x hx
      obtain ⟨r, hr, rfl⟩ := List.mem_map.mp hx
      exact max_eq_left (by linarith [h r hr])
  unfold simulateMeanVarianceOptimization heurWeights
  split_ifs with hp
  · constructor
    · intro habs
      exact absurd habs (by simp)
    · intro hall
      exact absurd (key.mpr hall) (not_le.mpr hp)
  · constructor
    · intro _
      exact key.mp (le_of_not_lt hp)
    · intro _
      rfl

lemma mem_markIdx (t : ℕ) :
    ∀ (ps : List FrontierPoint) (i : ℕ) (p : FrontierPoint), p ∈ markIdx t i ps →
      ∃ q ∈ ps, p = q ∨ p = setOptimal q := by
  intro ps
  induction ps with
  | nil => intro i p hp; simp [markIdx] at hp
  | cons a rest ih =>
    intro i p hp
    rcases List.mem_cons.mp hp with h0 | h1
    · by_cases hit : i = t
      · exact ⟨a, by simp, Or.inr (by simpa [markIdx, hit] using h0)⟩
      · exact ⟨a, by simp, Or.inl (by simpa [markIdx, hit] using h0)⟩
    · obtain ⟨q, hq, hor⟩ := ih (i + 1) p h1
      exact ⟨q, by simp [hq], hor⟩

lemma markIdx_getElem? (t : ℕ) :
    ∀ (ps : List FrontierPoint) (i j : ℕ),
      (markIdx t i ps)[j]? = ps[j]?.map (fun p => if i + j = t then setOptimal p else p) := by
  intro ps
  induction ps with
  | nil => intro i j; simp [markIdx]
  | cons a rest ih =>
    intro i j
    cases j with
    | zero => simp [markIdx]
    | succ k =>
      simp only [markIdx, List.getElem?_cons_succ, ih (i + 1) k]
      have he : i + 1 + k = i + (k + 1) := by omega
      rw [he]

lemma markIdx_length (t : ℕ) :
    ∀ (ps : List FrontierPoint) (i : ℕ), (markIdx t i ps).length = ps.length := by
  intro ps
  induction ps with
  | nil => intro i; rfl
  | cons a rest ih => intro i; simp [markIdx, ih]

lemma setOptimal_sharpe (p : FrontierPoint) : (setOptimal p).sharpeRatio = p.sharpeRatio := rfl

lemma setOptimal_risk (p : FrontierPoint) : (setOptimal p).risk = p.risk := rfl

lemma setOptimal_weights (p : FrontierPoint) : (setOptimal p).weights = p.weights := rfl

lemma bestSharpeAux_spec :
    ∀ (ps : List FrontierPoint) (i bi : ℕ) (bs : ℝ),
      (((bestSharpeAux ps i bi bs).1 = bi ∧ (bestSharpeAux ps i bi bs).2 = bs) ∨
        ∃ j p, ps[j]? = some p ∧ (bestSharpeAux ps i bi bs).1 = i + j ∧
          (bestSharpeAux ps i bi bs).2 = p.sharpeRatio) ∧
      bs ≤ (bestSharpeAux ps i bi bs).2 ∧
      ∀ (j : ℕ) (p : FrontierPoint),
        ps[j]? = some p → p.sharpeRatio ≤ (bestSharpeAux ps i bi bs).2 := by
  intro ps
  induction ps with
  | nil =>
    intro i bi bs
    refine ⟨Or.inl ⟨rfl, rfl⟩, le_refl _, ?_⟩
    intro j p hp
    simp at hp
  | cons a rest ih =>
    intro i bi bs
    by_cases hgt : a.sharpeRatio > bs
    · simp only [bestSharpeAux, if_pos hgt]
      obtain ⟨hrep, hle, hbound⟩ := ih (i + 1) i a.sharpeRatio
      refine ⟨?_, le_trans (le_of_lt hgt) hle, ?_⟩
      · rcases hrep with ⟨h1, h2⟩ | ⟨j, p, hj, h1, h2⟩
        · exact Or.inr ⟨0, a, by simp, by simpa using h1, h2⟩
        · exact Or.inr ⟨j + 1, p, by simpa using hj, by omega, h2⟩
      · intro j p hp
        cases j with
        | zero =>
          have hpa : a = p := by simpa using hp
          subst hpa
          exact hle
        | succ k => exact hbound k p (by simpa using hp)
    · simp only [bestSharpeAux, if_neg hgt]
      obtain ⟨hrep, hle, hbound⟩ := ih (i + 1) bi bs
      refine ⟨?_, hle, ?_⟩
      · rcases hrep with ⟨h1, h2⟩ | ⟨j, p, hj, h1, h2⟩
        · exact Or.inl ⟨h1, h2⟩
        · exact Or.inr ⟨j + 1, p, by simpa using hj, by omega, h2⟩
      · intro j p hp
        cases j with
        | zero =>
          have hpa : a = p := by simpa using hp
          subst hpa
          exact le_trans (le_of_not_lt hgt) hle
        | succ k => exact hbound k p (by simpa using hp)

lemma bestSharpeIdx_spec (ps : List FrontierPoint) (hne : ps ≠ []) :
    ∃ q, ps[bestSharpeIdx ps]? = some q ∧
      ∀ (j : ℕ) (u : FrontierPoint), ps[j]? = some u → u.sharpeRatio ≤ q.sharpeRatio := by
  match ps, hne with
  | p :: rest, _ =>
    obtain ⟨hrep, hle, hbound⟩ := bestSharpeAux_spec rest 1 0 p.sharpeRatio
    rcases hrep with ⟨h1, h2⟩ | ⟨j, q, hj, h1, h2⟩
    · refine ⟨p, ?_, ?_⟩
      · simp [bestSharpeIdx, h1]
      · intro j u hu
        cases j with
        | zero =>
          have hup : p = u := by simpa using hu
          subst hup
          exact le_refl _
        | succ k =>
          have := hbound k u (by simpa using hu)
          rw [h2] at this
          exact this
    · refine ⟨q, ?_, ?_⟩
      · have : bestSharpeIdx (p :: rest) = j + 1 := by
          simp only [bestSharpeIdx, h1]
          omega
        rw [this]
        simpa using hj
      · intro j2 u hu
        cases j2 with
        | zero =>
          have hup : p = u := by simpa using hu
          subst hup
          rw [← h2]
          exact hle
        | succ k =>
          have := hbound k u (by simpa using hu)
          rw [h2] at this
          exact this

/-- The points collected by the sweep before the flagging step. -/
noncomputable def rawFrontierPoints (pd : PortfolioData) (numPoints : ℕ) :
    List FrontierPoint :=
  (frontierTargets pd numPoints).filterMap
    (fun t => (simulateMeanVarianceOptimization pd (t / 100)).map (mkFrontierPoint pd))

lemma generateEfficientFrontier_eq (pd : PortfolioData) (n : ℕ) :
    generateEfficientFrontier pd n = flagMaxSharpe (rawFrontierPoints pd n) := rfl

lemma rawFrontierPoints_mem (pd : PortfolioData) (n : ℕ) (p : FrontierPoint)
    (hp : p ∈ rawFrontierPoints pd n) :
    ∃ t ∈ frontierTargets pd n,
      simulateMeanVarianceOptimization pd (t / 100) = some p.weights ∧
      p.isOptimal = false := by
  obtain ⟨t, ht, heq⟩ := List.mem_filterMap.mp hp
  obtain ⟨ws, hws, hmk⟩ := Option.map_eq_some'.mp heq
  refine ⟨t, ht, ?_, ?_⟩
  · rw [hws, ← hmk]
    rfl
  · rw [← hmk]
    rfl

/-- C5 counterexample: on the two-asset input (high-variance low-return
asset A, low-variance high-return asset B) the frontier builder emits its
points in sweep order with strictly decreasing risk, so the returned
sequence is not strictly sorted by ascending risk. -/
theorem frontier_not_sorted_by_risk :
    ¬ List.Chain' (fun a b => a.risk < b.risk)
      (generateEfficientFrontier cexPortfolio 2) := by
  rw [genEF_cex]
  intro hch
  have h01 : cexPoint0.risk < (setOptimal cexPoint1).risk := (List.chain'_cons.mp hch).1
  rw [setOptimal_risk, cexPoint0_risk, cexPoint1_risk] at h01
  have := sqrt_var0_gt
  linarith

/-- C5 amended: the frontier builder returns its points in target-sweep
order without sorting them by risk; it does flag a maximum-Sharpe point:
some index holds a point with `isOptimal = true` whose Sharpe ratio is
maximal over the sequence, and every other index is unflagged. -/
theorem frontier_flags_max_sharpe (pd : PortfolioData) (n : ℕ)
    (hne : generateEfficientFrontier pd n ≠ []) :
    ∃ (i : ℕ) (p : FrontierPoint),
      (generateEfficientFrontier pd n)[i]? = some p ∧ p.isOptimal = true ∧
      (∀ (j : ℕ) (q : FrontierPoint), (generateEfficientFrontier pd n)[j]? = some q →
        q.sharpeRatio ≤ p.sharpeRatio) ∧
      (∀ (j : ℕ) (q : FrontierPoint), (generateEfficientFrontier pd n)[j]? = some q →
        j ≠ i → q.isOptimal = false) := by
  have hraw : generateEfficientFrontier pd n =
      markIdx (bestSharpeIdx (rawFrontierPoints pd n)) 0 (rawFrontierPoints pd n) := rfl
  have hpsne : rawFrontierPoints pd n ≠ [] := by
    intro h0
    apply hne
    rw [hraw, h0]
    rfl
  obtain ⟨q, hq, hbound⟩ := bestSharpeIdx_spec (rawFrontierPoints pd n) hpsne
  refine ⟨bestSharpeIdx (rawFrontierPoints pd n), setOptimal q, ?_, rfl, ?_, ?_⟩
  · rw [hraw, markIdx_getElem?, hq]
    simp
  · intro j u hu
    rw [hraw, markIdx_getElem?] at hu
    obtain ⟨v, hv, hvu⟩ := Option.map_eq_some'.mp hu
    have hvb := hbound j v hv
    rw [setOptimal_sharpe]
    by_cases hj : 0 + j = bestSharpeIdx (rawFrontierPoints pd n)
    · rw [if_pos hj] at hvu
      rw [← hvu, setOptimal_sharpe]
      exact hvb
    · rw [if_neg hj] at hvu
      rw [← hvu]
      exact hvb
  · intro j u hu hj
    rw [hraw, markIdx_getElem?] at hu
    obtain ⟨v, hv, hvu⟩ := Option.map_eq_some'.mp hu
    have hj2 : ¬ (0 + j = bestSharpeIdx (rawFrontierPoints pd n)) := by omega
    rw [if_neg hj2] at hvu
    have hmem : v ∈ rawFrontierPoints pd n := List.getElem?_mem hv
    obtain ⟨t, _, _, hopt⟩ := rawFrontierPoints_mem pd n v hmem
    rw [← hvu]
    exact hopt

/-- C5 amended, witness: the flagging theorem applied to the two-asset
input with two sweep points. -/
theorem frontier_flags_max_sharpe_witness :
    ∃ (i : ℕ) (p : FrontierPoint),
      (generateEfficientFrontier cexPortfolio 2)[i]? = some p ∧ p.isOptimal = true ∧
      (∀ (j : ℕ) (q : FrontierPoint), (generateEfficientFrontier cexPortfolio 2)[j]? = some q →
        q.sharpeRatio ≤ p.sharpeRatio) ∧
      (∀ (j : ℕ) (q : FrontierPoint), (generateEfficientFrontier cexPortfolio 2)[j]? = some q →
        j ≠ i → q.isOptimal = false) :=
  frontier_flags_max_sharpe cexPortfolio 2 (by rw [genEF_cex]; simp)

/-- C6 counterexample: the sweep targets on the two-asset input are 0 and 10
(the minimum and maximum single-asset returns, in percent), but the first
produced point has expected return 7.5 percent, not the target 0: the
simulated optimizer does not solve min-variance under a `w . mu = target`
constraint, and the sweep does not start at the minimum-variance
portfolio's return. -/
theorem frontier_return_ne_target :
    frontierTargets cexPortfolio 2 = [0, 10] ∧
    (generateEfficientFrontier cexPortfolio 2).map (fun p => p.ret) = [7.5, 10] ∧
    (7.5 : ℝ) ≠ 0 := by
  refine ⟨targets_cex, ?_, by norm_num⟩
  rw [genEF_cex]
  simp only [List.map_cons, List.map_nil]
  have e0 : cexPoint0.ret = 7.5 := by
    simp only [cexPoint0, mkFrontierPoint, ret_cex0]
    norm_num
  have e1 : (setOptimal cexPoint1).ret = 10 := by
    simp only [setOptimal, cexPoint1, mkFrontierPoint, ret_cex1]
    norm_num
  rw [e0, e1]

/-- C6 amended: the frontier builder sweeps targets linearly from the
minimum to the maximum single-asset return; every returned point comes from
the heuristic weighting of some sweep target (`w_i` proportional to
`max(0, mu_i - target + 0.05)`, normalized so the weights sum to 1, with no
target-return constraint enforced), and a target level yields `null` (is
skipped, not substituted) exactly when every asset return is at most
`target - 0.05`. -/
theorem frontier_sweep_heuristic (pd : PortfolioData) (n : ℕ) :
    (∀ p ∈ generateEfficientFrontier pd n, ∃ t ∈ frontierTargets pd n,
      simulateMeanVarianceOptimization pd (t / 100) = some p.weights ∧
      p.weights.sum = 1) ∧
    (∀ t : ℝ, simulateMeanVarianceOptimization pd t = none ↔
      ∀ r ∈ pd.returns, r + 0.05 ≤ t) := by
  refine ⟨?_, fun t => simMVO_none_iff pd t⟩
  intro p hp
  obtain ⟨q, hqmem, hor⟩ :=
    mem_markIdx (bestSharpeIdx (rawFrontierPoints pd n)) (rawFrontierPoints pd n) 0 p hp
  obtain ⟨t, ht, hsim, _⟩ := rawFrontierPoints_mem pd n q hqmem
  have hw : p.weights = q.weights := by
    rcases hor with rfl | rfl
    · rfl
    · exact setOptimal_weights q
  refine ⟨t, ht, ?_, ?_⟩
  · rw [hw]
    exact hsim
  · rw [hw]
    exact simMVO_sum_one pd (t / 100) q.weights hsim

/-- C6 amended, witness: the sweep theorem applied to the first point of the
two-asset frontier. -/
theorem frontier_sweep_heuristic_witness :
    ∃ t ∈ frontierTargets cexPortfolio 2,
      simulateMeanVarianceOptimization cexPortfolio (t / 100) = some cexPoint0.weights ∧
      cexPoint0.weights.sum = 1 :=
  (frontier_sweep_heuristic cexPortfolio 2).1 cexPoint0
    (by rw [genEF_cex]; exact List.mem_cons_self _ _)

/-- The constraint set of the random-cloud counterexample: a 50 percent
position cap and no minimum. -/
noncomputable def cexRandomCons : RandomConstraints :=
  { maxWeight := some 0.5, minWeight := none }

lemma clipped_cex : clippedWeights cexRandomCons [0.3, 0.7] = [0.3, 0.5] := by
  simp only [clippedWeights, normalizedRaws, applyMaxWeight, applyMinWeight, cexRandomCons]
  norm_num [min_def]

/-- C7 counterexample: with a 50 percent position cap, the random draws
[0.3, 0.7] are clipped to [0.3, 0.5] and then renormalized to
[0.375, 0.625]; the second component exceeds the cap, so the sampled
portfolio violates its own position bounds. -/
theorem random_portfolio_violates_bounds :
    (mkRandomPortfolio cexPortfolio cexRandomCons [0.3, 0.7]).weights = [0.375, 0.625] ∧
    ¬ ∀ w ∈ (mkRandomPortfolio cexPortfolio cexRandomCons [0.3, 0.7]).weights,
        w ≤ (0.5 : ℝ) := by
  have hw : (mkRandomPortfolio cexPortfolio cexRandomCons [0.3, 0.7]).weights
      = [0.375, 0.625] := by
    simp only [mkRandomPortfolio, mkFrontierPoint, clipped_cex]
    rw [if_pos (by norm_num : ([0.3, 0.5] : List ℝ).sum > 0)]
    norm_num
  refine ⟨hw, ?_⟩
  intro hall
  have h2 := hall 0.625 (by rw [hw]; simp)
  norm_num at h2

/-- C7 amended: every sampled random portfolio whose post-clip weight sum is
positive has weights summing to exactly 1 after the final renormalization;
the renormalization can push individual components outside the configured
bounds, so only the sum property holds. -/
theorem random_portfolio_weights_sum_one (pd : PortfolioData) (c : RandomConstraints)
    (raws : List ℝ) (h : 0 < (clippedWeights c raws).sum) :
    (mkRandomPortfolio pd c raws).weights.sum = 1 := by
  simp only [mkRandomPortfolio, mkFrontierPoint]
  rw [if_pos h, sum_map_div, div_self (ne_of_gt h)]

/-- C7 amended, witness: the sum-to-one theorem applied to the clipped and
renormalized draw [0.3, 0.7] under the 50 percent cap. -/
theorem random_portfolio_weights_sum_one_witness :
    (mkRandomPortfolio cexPortfolio cexRandomCons [0.3, 0.7]).weights.sum = 1 :=
  random_portfolio_weights_sum_one cexPortfolio cexRandomCons [0.3, 0.7]
    (by rw [clipped_cex]; norm_num)

/-! ## Model of usePerformanceAnalysis (hooks/usePerformanceAnalysis.ts)

The metrics memo reads the `performanceReturns` series; its Sharpe, Sortino
and maximum-drawdown computations are embedded below, together with the
branch structure of the memo (series branch, holdings fallback branch, zero
branch) for the drawdown field. -/

/-- One element of `performanceReturns`, with the fields the metrics read. -/
structure PerfPoint where
  date : String
  portfolioValue : ℝ
  dailyReturn : ℝ
  cumulativeReturn : ℝ
  benchmarkReturn : ℝ

/-- One holding as read by the fallback branch of the metrics memo. -/
structure PerfHolding where
  average_cost : ℝ
  quantity : ℝ

/-- JavaScript division applied to reals: dividing by zero yields a
non-finite number (Infinity or NaN), which has no real value and is
embedded as `none`. -/
noncomputable def jsdiv (a b : ℝ) : Option ℝ :=
  if b = 0 then none else some (a / b)

/-- Source: `meanReturn = Σ r / dailyReturns.length`. -/
noncomputable def meanReturn (rs : List ℝ) : ℝ := rs.sum / rs.length

/-- Source: `variance = Σ (r - meanReturn)^2 / (dailyReturns.length - 1)`. -/
noncomputable def sampleVariance (rs : List ℝ) : ℝ :=
  (rs.map (fun r => (r - meanReturn rs) ^ 2)).sum / ((rs.length : ℝ) - 1)

/-- Source: `volatility = sqrt(variance * 252) * 100`. -/
noncomputable def perfVolatility (rs : List ℝ) : ℝ :=
  Real.sqrt (sampleVariance rs * 252) * 100

/-- Source: `sharpeRatio = (excessReturn * 252) / (volatility / 100)`.  This
division carries no zero-volatility guard, so a zero-volatility series
produces a non-finite number. -/
noncomputable def perfSharpeRatio (rs : List ℝ) : Option ℝ :=
  jsdiv ((meanReturn rs - 0.02 / 252) * 252) (perfVolatility rs / 100)

/-- Source: `downsideReturns = dailyReturns.filter(r => r < dailyRiskFreeRate)`. -/
noncomputable def downsideReturns (rs : List ℝ) : List ℝ :=
  rs.filter (fun r => r < 0.02 / 252)

/-- Source: the guarded downside variance of the Sortino computation. -/
noncomputable def downsideVariance (rs : List ℝ) : ℝ :=
  if (downsideReturns rs).length > 0 then
    ((downsideReturns rs).map (fun r => (r - 0.02 / 252) ^ 2)).sum /
      ((downsideReturns rs).length : ℝ)
  else 0

/-- Source: `downsideVolatility = sqrt(downsideVariance * 252)`. -/
noncomputable def downsideVolatility (rs : List ℝ) : ℝ :=
  Real.sqrt (downsideVariance rs * 252)

/-- Source: the Sortino ratio, guarded on the downside volatility (not on the
total volatility). -/
noncomputable def perfSortinoRatio (rs : List ℝ) : ℝ :=
  if downsideVolatility rs > 0 then
    (meanReturn rs - 0.02 / 252) * 252 / downsideVolatility rs
  else 0

lemma mean_zero_pair : meanReturn [0, 0] = 0 := by
  norm_num [meanReturn]

lemma variance_zero_pair : sampleVariance [0, 0] = 0 := by
  norm_num [sampleVariance, mean_zero_pair]

lemma volatility_zero_pair : perfVolatility [0, 0] = 0 := by
  rw [perfVolatility, variance_zero_pair]
  norm_num

lemma downside_zero_pair : downsideReturns [0, 0] = [0, 0] := by
  have hlt : (0 : ℝ) < 0.02 / 252 := by norm_num
  simp [downsideReturns, List.filter, hlt]

lemma downsideVariance_zero_pair : downsideVariance [0, 0] = (0.02 / 252) ^ 2 := by
  rw [downsideVariance]
  rw [if_pos (by rw [downside_zero_pair]; norm_num)]
  rw [downside_zero_pair]
  norm_num

lemma downsideVolatility_zero_pair :
    downsideVolatility [0, 0] = 0.02 / 252 * Real.sqrt 252 := by
  rw [downsideVolatility, downsideVariance_zero_pair]
  rw [show ((0.02 / 252 : ℝ) ^ 2 * 252) = (0.02 / 252) ^ 2 * 252 from rfl]
  rw [Real.sqrt_mul (by positivity)]
  rw [Real.sqrt_sq (by norm_num)]

/-- C8: on the two-day series with constant zero daily returns the portfolio
volatility is zero, yet the performance hook's Sharpe ratio divides by it
without a guard (a non-finite JavaScript number, embedded `none`, not the
claimed 0), and its Sortino ratio is `-sqrt 252`, not 0 either: the
zero-volatility guard the claim requires exists only in the risk hook's
Sharpe computation, not here. -/
theorem perf_ratios_unguarded_at_zero_volatility :
    perfVolatility [0, 0] = 0 ∧
    perfSharpeRatio [0, 0] = none ∧
    perfSortinoRatio [0, 0] = -Real.sqrt 252 ∧
    perfSortinoRatio [0, 0] ≠ 0 := by
  have hvol := volatility_zero_pair
  have hs252 := sqrt252_pos
  have hsort : perfSortinoRatio [0, 0] = -Real.sqrt 252 := by
    rw [perfSortinoRatio]
    rw [if_pos (by rw [downsideVolatility_zero_pair]; positivity)]
    rw [downsideVolatility_zero_pair, mean_zero_pair]
    rw [show ((0 : ℝ) - 0.02 / 252) * 252 = -(0.02 / 252 * 252) by ring]
    rw [neg_div, mul_div_mul_left _ _ (by norm_num : (0.02 / 252 : ℝ) ≠ 0)]
    rw [Real.div_sqrt]
  refine ⟨hvol, ?_, hsort, ?_⟩
  · rw [perfSharpeRatio, hvol]
    simp [jsdiv]
  · rw [hsort]
    intro h0
    have := neg_eq_zero.mp h0
    exact absurd this (ne_of_gt hs252)

/-! ### The maximum-drawdown scan of usePerformanceAnalysis -/

/-- The mutable state of the drawdown loop: running peak, maximum drawdown
so far, and the date at which it was recorded. -/
structure DDState where
  peak : ℝ
  maxDD : ℝ
  maxDate : String

/-- Source: `if (point.portfolioValue > peak) peak = point.portfolioValue`. -/
noncomputable def newPeak (s : DDState) (p : PerfPoint) : ℝ :=
  if p.portfolioValue > s.peak then p.portfolioValue else s.peak

/-- One iteration of the source's `forEach`: update the peak, compute
`(peak - value) / peak`, and record it with the point's date when it
exceeds the maximum so far. -/
noncomputable def ddStep (s : DDState) (p : PerfPoint) : DDState :=
  if (newPeak s p - p.portfolioValue) / newPeak s p > s.maxDD then
    { peak := newPeak s p
      maxDD := (newPeak s p - p.portfolioValue) / newPeak s p
      maxDate := p.date }
  else
    { peak := newPeak s p, maxDD := s.maxDD, maxDate := s.maxDate }

/-- The loop's initial peak, `performanceReturns[0].portfolioValue`; the
source only reaches the loop when the series is nonempty. -/
noncomputable def initPeak : List PerfPoint → ℝ
  | [] => 0
  | p :: _ => p.portfolioValue

/-- The whole drawdown scan of the metrics memo. -/
noncomputable def ddScan (prs : List PerfPoint) : DDState :=
  prs.foldl ddStep { peak := initPeak prs, maxDD := 0, maxDate := "" }

/-- Source: `totalCost = Σ holding.average_cost * holding.quantity` of the
fallback branch. -/
noncomputable def perfTotalCost (hs : List PerfHolding) : ℝ :=
  (hs.map (fun h => h.average_cost * h.quantity)).sum

/-- Source: the fallback branch's `totalReturn`. -/
noncomputable def perfTotalReturn (hs : List PerfHolding) (tv : ℝ) : ℝ :=
  if perfTotalCost hs > 0 then (tv - perfTotalCost hs) / perfTotalCost hs * 100 else 0

/-- The `(maxDrawdown, maxDrawdownDate)` pair of the metrics memo, including
its three branches: scan of a nonempty series, the heuristic fallback
`max(5, |totalReturn| * 0.4)` when there are holdings but no series, and the
zero record otherwise.  `today` embeds `new Date().toISOString()`. -/
noncomputable def perfMaxDrawdown (prs : List PerfPoint) (hs : List PerfHolding)
    (tv : ℝ) (today : String) : ℝ × String :=
  if prs.length > 0 then
    ((ddScan prs).maxDD * 100, (ddScan prs).maxDate)
  else if tv > 0 ∧ hs.length > 0 then
    (max 5 (|perfTotalReturn hs tv| * 0.4), today)
  else (0, "")

/-- The spec's "largest peak-to-trough decline" measured from a fixed peak
value `p`: the largest relative decline `(p - v) / p` over the later values
`vs`, and 0 when nothing declines below the peak. -/
noncomputable def declineFrom (p : ℝ) (vs : List ℝ) : ℝ :=
  vs.foldr (fun v m => max ((p - v) / p) m) 0

/-- The spec's "largest peak-to-trough decline" of a value series: the
largest relative decline from any value to any later (or equal) value, and
0 for a series that never declines. -/
noncomputable def largestPeakTroughDecline : List ℝ → ℝ
  | [] => 0
  | v :: rest => max (declineFrom v rest) (largestPeakTroughDecline rest)

/-- The value computed by the scan from a running peak `p`, in recursive
form: at each value the peak is raised first, then the decline from the
raised peak is taken. -/
noncomputable def scanDecline (p : ℝ) : List ℝ → ℝ
  | [] => 0
  | v :: rest => max ((max p v - v) / max p v) (scanDecline (max p v) rest)

lemma newPeak_eq_max (s : DDState) (p : PerfPoint) :
    newPeak s p = max s.peak p.portfolioValue := by
  rw [newPeak]
  rcases lt_or_le s.peak p.portfolioValue with h | h
  · rw [if_pos h, max_eq_right (le_of_lt h)]
  · rw [if_neg (not_lt.mpr h), max_eq_left h]

lemma ddStep_peak (s : DDState) (p : PerfPoint) :
    (ddStep s p).peak = max s.peak p.portfolioValue := by
  rw [ddStep]
  split_ifs <;> exact newPeak_eq_max s p

lemma ddStep_maxDD (s : DDState) (p : PerfPoint) :
    (ddStep s p).maxDD = max s.maxDD
      ((max s.peak p.portfolioValue - p.portfolioValue) /
        max s.peak p.portfolioValue) := by
  rw [ddStep]
  split_ifs with h
  · rw [newPeak_eq_max] at h ⊢
    exact (max_eq_right (le_of_lt h)).symm
  · rw [newPeak_eq_max] at h
    exact (max_eq_left (le_of_not_lt h)).symm

lemma foldl_ddStep_maxDD :
    ∀ (prs : List PerfPoint) (s : DDState), 0 ≤ s.maxDD →
      (prs.foldl ddStep s).maxDD =
        max s.maxDD (scanDecline s.peak (prs.map (fun p => p.portfolioValue))) := by
  intro prs
  induction prs with
  | nil =>
    intro s hs
    simp [scanDecline, max_eq_left hs]
  | cons p rest ih =>
    intro s hs
    have hstep : 0 ≤ (ddStep s p).maxDD := by
      rw [ddStep_maxDD]
      exact le_trans hs (le_max_left _ _)
    rw [List.foldl_cons, ih (ddStep s p) hstep, ddStep_maxDD, ddStep_peak]
    rw [List.map_cons, scanDecline]
    rw [max_assoc]

lemma declineFrom_nonneg (p : ℝ) (vs : List ℝ) : 0 ≤ declineFrom p vs := by
  induction vs with
  | nil => exact le_refl 0
  | cons v rest ih =>
    rw [declineFrom, List.foldr_cons]
    exact le_trans ih (le_max_right _ _)

lemma largestPeakTroughDecline_nonneg (vs : List ℝ) :
    0 ≤ largestPeakTroughDecline vs := by
  induction vs with
  | nil => exact le_refl 0
  | cons v rest ih =>
    rw [largestPeakTroughDecline]
    exact le_trans ih (le_max_right _ _)

lemma declineFrom_cons (p v : ℝ) (vs : List ℝ) :
    declineFrom p (v :: vs) = max ((p - v) / p) (declineFrom p vs) := rfl

lemma decline_max_split {p v x : ℝ} (hp : 0 < p) (hv : 0 < v) (hx : 0 < x) :
    (max p v - x) / max p v = max ((p - x) / p) ((v - x) / v) := by
  have key : ∀ a b : ℝ, 0 < a → 0 < b → a ≤ b →
      (b - x) / b = max ((a - x) / a) ((b - x) / b) := by
    intro a b ha hb hab
    rw [max_eq_right]
    rw [sub_div, sub_div, div_self (ne_of_gt ha), div_self (ne_of_gt hb)]
    have : x / b ≤ x / a := by gcongr
    linarith
  rcases le_total p v with h | h
  · rw [max_eq_right h]
    exact key p v hp hv h
  · rw [max_eq_left h, max_comm ((p - x) / p) _]
    exact key v p hv hp h

lemma declineFrom_max (p v : ℝ) (hp : 0 < p) (hv : 0 < v) :
    ∀ (vs : List ℝ), (∀ x ∈ vs, 0 < x) →
      declineFrom (max p v) vs = max (declineFrom p vs) (declineFrom v vs) := by
  intro vs
  induction vs with
  | nil => intro _; simp [declineFrom]
  | cons x rest ih =>
    intro hpos
    have hx : 0 < x := hpos x (by simp)
    have hrest : ∀ y ∈ rest, 0 < y := fun y hy => hpos y (by simp [hy])
    rw [declineFrom_cons, declineFrom_cons, declineFrom_cons, ih hrest,
      decline_max_split hp hv hx]
    rw [max_max_max_comm]

lemma scanDecline_eq :
    ∀ (vs : List ℝ) (p : ℝ), 0 < p → (∀ x ∈ vs, 0 < x) →
      scanDecline p vs = max (declineFrom p vs) (largestPeakTroughDecline vs) := by
  intro vs
  induction vs with
  | nil =>
    intro p _ _
    simp [scanDecline, declineFrom, largestPeakTroughDecline]
  | cons v rest ih =>
    intro p hp hpos
    have hv : 0 < v := hpos v (by simp)
    have hrest : ∀ x ∈ rest, 0 < x := fun x hx => hpos x (by simp [hx])
    have hpv : 0 < max p v := lt_of_lt_of_le hp (le_max_left _ _)
    rw [scanDecline, ih (max p v) hpv hrest, declineFrom_max p v hp hv rest hrest]
    rw [decline_max_split hp hv hv]
    rw [show (v - v) / v = 0 by rw [sub_self, zero_div]]
    rw [declineFrom_cons, largestPeakTroughDecline]
    have hB : 0 ≤ declineFrom p rest := declineFrom_nonneg p rest
    have h0 : (0 : ℝ) ≤ max (max (declineFrom p rest) (declineFrom v rest))
        (largestPeakTroughDecline rest) :=
      le_trans hB (le_trans (le_max_left _ _) (le_max_left _ _))
    rw [max_assoc ((p - v) / p) 0, max_eq_right h0,
      max_assoc (declineFrom p rest) (declineFrom v rest) (largestPeakTroughDecline rest),
      ← max_assoc ((p - v) / p) (declineFrom p rest)]

lemma ddScan_maxDD_eq (p0 : PerfPoint) (rest : List PerfPoint)
    (hpos : ∀ p ∈ p0 :: rest, 0 < p.portfolioValue) :
    (ddScan (p0 :: rest)).maxDD =
      largestPeakTroughDecline ((p0 :: rest).map (fun p => p.portfolioValue)) := by
  have hv0 : 0 < p0.portfolioValue := hpos p0 (by simp)
  have hrest : ∀ x ∈ rest.map (fun p => p.portfolioValue), 0 < x := by
    intro x hx
    obtain ⟨q, hq, rfl⟩ := List.mem_map.mp hx
    exact hpos q (by simp [hq])
  rw [ddScan, foldl_ddStep_maxDD (p0 :: rest) _ (le_refl 0)]
  show max 0 (scanDecline p0.portfolioValue
    ((p0 :: rest).map (fun p => p.portfolioValue))) = _
  rw [List.map_cons, scanDecline, max_self]
  rw [show (p0.portfolioValue - p0.portfolioValue) / p0.portfolioValue = 0 by
    rw [sub_self, zero_div]]
  rw [scanDecline_eq (rest.map (fun p => p.portfolioValue)) p0.portfolioValue hv0 hrest]
  rw [largestPeakTroughDecline]
  have h1 : (0 : ℝ) ≤ max (declineFrom p0.portfolioValue
      (rest.map (fun p => p.portfolioValue)))
      (largestPeakTroughDecline (rest.map (fun p => p.portfolioValue))) :=
    le_trans (declineFrom_nonneg _ _) (le_max_left _ _)
  rw [max_eq_right h1, max_eq_right h1]

/-- The disjunction maintained by the drawdown loop about its recorded date:
either nothing has been recorded (the initial zero state), or the recorded
maximum drawdown is realized by a peak point followed by a trough point of
the series, and the recorded date is the trough's date. -/
abbrev DDWitness (prs : List PerfPoint) (s : DDState) : Prop :=
  (s.maxDD = 0 ∧ s.maxDate = "") ∨
  ∃ q p, List.Sublist [q, p] prs ∧
    (q.portfolioValue - p.portfolioValue) / q.portfolioValue = s.maxDD ∧
    s.maxDate = p.date

lemma ddFold_invariant :
    ∀ (prs hist : List PerfPoint) (s : DDState),
      (∀ p ∈ hist, 0 < p.portfolioValue) → (∀ p ∈ prs, 0 < p.portfolioValue) →
      (∃ q ∈ hist, q.portfolioValue = s.peak) →
      0 ≤ s.maxDD → DDWitness hist s →
      DDWitness (hist ++ prs) (prs.foldl ddStep s) := by
  intro prs
  induction prs with
  | nil =>
    intro hist s _ _ _ _ hwit
    simpa using hwit
  | cons p rest ih =>
    intro hist s hhist hprs hatt hnn hwit
    have hp : 0 < p.portfolioValue := hprs p (by simp)
    have hrest : ∀ x ∈ rest, 0 < x.portfolioValue := fun x hx => hprs x (by simp [hx])
    have hhist2 : ∀ x ∈ hist ++ [p], 0 < x.portfolioValue := by
      intro x hx
      rcases List.mem_append.mp hx with h | h
      · exact hhist x h
      · rw [List.mem_singleton.mp h]
        exact hp
    obtain ⟨q0, hq0mem, hq0⟩ := hatt
    have hpk : (ddStep s p).peak = max s.peak p.portfolioValue := ddStep_peak s p
    have hatt2 : ∃ q ∈ hist ++ [p], q.portfolioValue = (ddStep s p).peak := by
      rw [hpk]
      rcases le_total s.peak p.portfolioValue with h | h
      · exact ⟨p, by simp, (max_eq_right h).symm⟩
      · exact ⟨q0, by simp [hq0mem], by rw [max_eq_left h]; exact hq0⟩
    have hnn2 : 0 ≤ (ddStep s p).maxDD := by
      rw [ddStep_maxDD]
      exact le_trans hnn (le_max_left _ _)
    have hwit2 : DDWitness (hist ++ [p]) (ddStep s p) := by
      rw [ddStep]
      split_ifs with hgt
      · rw [newPeak_eq_max] at hgt
        have hddpos : 0 < (max s.peak p.portfolioValue - p.portfolioValue) /
            max s.peak p.portfolioValue := lt_of_le_of_lt hnn hgt
        have hvlt : p.portfolioValue < max s.peak p.portfolioValue := by
          by_contra hc
          push_neg at hc
          have hmx : max s.peak p.portfolioValue = p.portfolioValue :=
            le_antisymm hc (le_max_right _ _)
          rw [hmx, sub_self, zero_div] at hddpos
          exact lt_irrefl 0 hddpos
        have hpeq : max s.peak p.portfolioValue = s.peak := by
          rcases max_cases s.peak p.portfolioValue with ⟨h1, _⟩ | ⟨h1, _⟩
          · exact h1
          · rw [h1] at hvlt
            exact absurd hvlt (lt_irrefl _)
        refine Or.inr ⟨q0, p, ?_, ?_, rfl⟩
        · exact List.Sublist.append (List.singleton_sublist.mpr hq0mem)
            (List.Sublist.refl [p])
        · show (q0.portfolioValue - p.portfolioValue) / q0.portfolioValue =
            (newPeak s p - p.portfolioValue) / newPeak s p
          rw [hq0, newPeak_eq_max, hpeq]
      · rcases hwit with ⟨h1, h2⟩ | ⟨q, p2, hsub, heq, hdate⟩
        · exact Or.inl ⟨h1, h2⟩
        · exact Or.inr ⟨q, p2, hsub.trans (List.sublist_append_left hist [p]),
            heq, hdate⟩
    have hfin := ih (hist ++ [p]) (ddStep s p) hhist2 hrest hatt2 hnn2 hwit2
    rw [List.append_assoc] at hfin
    rw [List.foldl_cons]
    simpa using hfin

lemma ddScan_date (p0 : PerfPoint) (rest : List PerfPoint)
    (hpos : ∀ p ∈ p0 :: rest, 0 < p.portfolioValue) :
    DDWitness (p0 :: rest) (ddScan (p0 :: rest)) := by
  have hv0 : 0 < p0.portfolioValue := hpos p0 (by simp)
  have hrest : ∀ x ∈ rest, 0 < x.portfolioValue := fun x hx => hpos x (by simp [hx])
  have hnp : newPeak { peak := initPeak (p0 :: rest), maxDD := 0, maxDate := "" } p0
      = p0.portfolioValue := by
    rw [newPeak_eq_max]
    exact max_self _
  have hstep0 : ddStep { peak := initPeak (p0 :: rest), maxDD := 0, maxDate := "" } p0 =
      { peak := initPeak (p0 :: rest), maxDD := 0, maxDate := "" } := by
    rw [ddStep, if_neg]
    · rw [hnp]
      rfl
    · rw [hnp, sub_self, zero_div]
      exact lt_irrefl 0
  rw [ddScan, List.foldl_cons, hstep0]
  have hfin := ddFold_invariant rest [p0]
    { peak := initPeak (p0 :: rest), maxDD := 0, maxDate := "" }
    (by intro x hx; rw [List.mem_singleton.mp hx]; exact hv0)
    hrest ⟨p0, by simp, rfl⟩ (le_refl 0) (Or.inl ⟨rfl, rfl⟩)
  simpa using hfin

/-- The holding of the C9 counterexample: bought at 100, quantity 1. -/
noncomputable def fallbackHolding : PerfHolding := { average_cost := 100, quantity := 1 }

/-- C9 counterexample: with an empty performance series (fewer than 2
observations) but one holding worth 110 against a cost of 100, the hook
reports a maximum drawdown of `max(5, |10| * 0.4) = 5`, not the 0 the
claim requires for a series with fewer than 2 observations. -/
theorem perfMaxDrawdown_empty_fallback :
    (perfMaxDrawdown [] [fallbackHolding] 110 "2026-10-11").1 = 5 ∧ (5 : ℝ) ≠ 0 := by
  refine ⟨?_, by norm_num⟩
  rw [perfMaxDrawdown, if_neg (by simp), if_pos ⟨by norm_num, by simp⟩]
  have hc : perfTotalCost [fallbackHolding] = 100 := by
    norm_num [perfTotalCost, fallbackHolding]
  have hr : perfTotalReturn [fallbackHolding] 110 = 10 := by
    rw [perfTotalReturn, hc, if_pos (by norm_num)]
    norm_num
  show max 5 (|perfTotalReturn [fallbackHolding] 110| * 0.4) = 5
  rw [hr, abs_of_nonneg (by norm_num), max_eq_left (by norm_num)]

/-- C9 amended: for a nonempty series of positive portfolio values the
reported maximum drawdown equals 100 times the largest peak-to-trough
relative decline of the value series, and the reported date is either empty
(when nothing declines) or the date of a trough point realizing that
maximum below an earlier peak point of the series; a 1-observation series
yields 0, and an empty series yields 0 only when there are no holdings or
no value (with holdings present the hook instead returns the heuristic
fallback `max(5, 0.4 * |totalReturn|)`). -/
theorem perfMaxDrawdown_spec (prs : List PerfPoint) (hs : List PerfHolding)
    (tv : ℝ) (today : String) (hne : prs ≠ [])
    (hpos : ∀ p ∈ prs, 0 < p.portfolioValue) :
    (perfMaxDrawdown prs hs tv today).1 =
      100 * largestPeakTroughDecline (prs.map (fun p => p.portfolioValue)) ∧
    ((ddScan prs).maxDD = 0 ∧ (perfMaxDrawdown prs hs tv today).2 = "" ∨
      ∃ q p, List.Sublist [q, p] prs ∧
        (q.portfolioValue - p.portfolioValue) / q.portfolioValue = (ddScan prs).maxDD ∧
        (perfMaxDrawdown prs hs tv today).2 = p.date) ∧
    (∀ pt : PerfPoint, prs = [pt] → (perfMaxDrawdown prs hs tv today).1 = 0) ∧
    (∀ (tv2 : ℝ) (d : String), perfMaxDrawdown [] [] tv2 d = (0, "")) := by
  match prs, hne with
  | p0 :: rest, _ =>
    have hlen : (p0 :: rest).length > 0 := by simp
    have h1 : (perfMaxDrawdown (p0 :: rest) hs tv today).1 =
        (ddScan (p0 :: rest)).maxDD * 100 := by
      rw [perfMaxDrawdown, if_pos hlen]
    have h2 : (perfMaxDrawdown (p0 :: rest) hs tv today).2 =
        (ddScan (p0 :: rest)).maxDate := by
      rw [perfMaxDrawdown, if_pos hlen]
    refine ⟨?_, ?_, ?_, ?_⟩
    · rw [h1, ddScan_maxDD_eq p0 rest hpos, mul_comm]
    · rw [h2]
      exact ddScan_date p0 rest hpos
    · intro pt hpt
      injection hpt with hpe hre
      subst hre
      rw [h1, ddScan_maxDD_eq p0 [] hpos]
      simp [largestPeakTroughDecline, declineFrom]
    · intro tv2 d
      simp [perfMaxDrawdown]

/-- The three-point series of the C9 witness: 100, then 50, then 80, so the
largest peak-to-trough decline is 50 percent, recorded at date d2. -/
noncomputable def witSeries : List PerfPoint :=
  [{ date := "d1", portfolioValue := 100, dailyReturn := 0,
     cumulativeReturn := 0, benchmarkReturn := 0 },
   { date := "d2", portfolioValue := 50, dailyReturn := 0,
     cumulativeReturn := 0, benchmarkReturn := 0 },
   { date := "d3", portfolioValue := 80, dailyReturn := 0,
     cumulativeReturn := 0, benchmarkReturn := 0 }]

/-- C9 amended, witness: the drawdown theorem applied to the concrete
three-point series 100, 50, 80. -/
theorem perfMaxDrawdown_spec_witness :
    (∀ p ∈ witSeries, 0 < p.portfolioValue) ∧
    ((perfMaxDrawdown witSeries [] 0 "t").1 =
      100 * largestPeakTroughDecline (witSeries.map (fun p => p.portfolioValue)) ∧
    ((ddScan witSeries).maxDD = 0 ∧ (perfMaxDrawdown witSeries [] 0 "t").2 = "" ∨
      ∃ q p, List.Sublist [q, p] witSeries ∧
        (q.portfolioValue - p.portfolioValue) / q.portfolioValue =
          (ddScan witSeries).maxDD ∧
        (perfMaxDrawdown witSeries [] 0 "t").2 = p.date) ∧
    (∀ pt : PerfPoint, witSeries = [pt] → (perfMaxDrawdown witSeries [] 0 "t").1 = 0) ∧
    (∀ (tv2 : ℝ) (d : String), perfMaxDrawdown [] [] tv2 d = (0, ""))) := by
  have hpos : ∀ p ∈ witSeries, 0 < p.portfolioValue := by
    intro p hp
    simp only [witSeries, List.mem_cons, List.not_mem_nil, or_false] at hp
    rcases hp with rfl | rfl | rfl <;> norm_num
  exact ⟨hpos, perfMaxDrawdown_spec witSeries [] 0 "t" (by simp [witSeries]) hpos⟩

end StocksFrontend
